import Mathlib

/-!
Verification of the hivemind controller and rendering manager
(`src/rlbot/managers/hivemind.py`, `src/rlbot/managers/rendering.py`)
against the natural-language specification.

The Python code is shallowly embedded: each method becomes a pure Lean
function on an explicit state record; side effects (log entries, messages
handed to the transport) are returned as explicit lists; Python exceptions
that escape a method are modelled with `Except`.  Opaque flatbuffer payload
types (`FieldInfo`, `BallPrediction`, player data, controller states) are
modelled as `Nat` or as one-field structures, since nothing in the verified
code inspects their contents.
-/

namespace RLBot

/-- Opaque payload: `flat.FieldInfo`. The hivemind only stores it. -/
abbrev FieldInfo := Nat

/-- Opaque payload: `flat.BallPrediction`. The hivemind only stores it. -/
abbrev BallPrediction := Nat

/-- Opaque payload: one entry of `packet.players`. Only the length of the
player array is inspected by the embedded code. -/
abbrev PlayerInfo := Nat

/-- Opaque payload: `flat.ControllerState`, as produced by `get_outputs`. -/
abbrev ControllerState := Nat

/-- One entry of `flat.MatchSettings.player_configurations`: the fields the
hivemind reads (`name`, `spawn_id`). -/
structure PlayerConfiguration where
  name : String
  spawn_id : Int
deriving DecidableEq

/-- The fields of `flat.MatchSettings` read by the hivemind. -/
structure MatchSettings where
  player_configurations : List PlayerConfiguration := []
deriving DecidableEq

/-- One entry of `flat.TeamControllables.controllables`: the fields the
hivemind reads (`index`, `spawn_id`). -/
structure Controllable where
  index : Nat
  spawn_id : Int
deriving DecidableEq

/-- The fields of `flat.TeamControllables` read by `_handle_player_mappings`. -/
structure TeamControllables where
  team : Int
  controllables : List Controllable := []
deriving DecidableEq

/-- The fields of `flat.GameTickPacket` read by `_packet_processor`. -/
structure GameTickPacket where
  players : List PlayerInfo := []
deriving DecidableEq

/-- `flat.PlayerInput(index, controller)` as sent via `send_player_input`. -/
structure PlayerInput where
  index : Nat
  controller : ControllerState
deriving DecidableEq

/-- One `self._logger.error(...)` call from `_packet_processor`: the source
logs the exception together with `self.names`. -/
structure ErrorLog where
  names : List String
  msg : String
deriving DecidableEq

/-- A Python exception escaping an embedded method (not caught inside it). -/
inductive PyErr where
  | indexError
deriving DecidableEq

/-- The attributes of one `Hivemind` object, as seen by a single instance
(hivemind.py lines 17-35 give their initial values).  `init_calls` counts
the invocations of the user-overridable `initialize` hook and
`init_complete_sent` records the `send_init_complete` call; both model the
observable effects of `_initialize` (lines 57-76). -/
structure HivemindState where
  team : Int := -1
  indices : List Nat := []
  names : List String := []
  spawn_ids : List Int := []
  loggers : List String := []
  match_settings : MatchSettings := {}
  field_info : FieldInfo := 0
  ball_prediction : BallPrediction := 0
  _initialized_bot : Bool := false
  _has_match_settings : Bool := false
  _has_field_info : Bool := false
  _has_player_mapping : Bool := false
  _latest_packet : Option GameTickPacket := none
  _latest_prediction : BallPrediction := 0
  init_calls : Nat := 0
  init_complete_sent : Bool := false
deriving DecidableEq

/-- The state of a freshly constructed `Hivemind` instance. -/
def freshHivemind : HivemindState := {}

/-- `Hivemind._initialize` (hivemind.py lines 57-76): append the names (and
a logger per name) of the match-settings players whose spawn id is in
`self.spawn_ids`, invoke the user `initialize` hook (counted in
`init_calls`; the default hook is a no-op, the failure path that logs and
exits the process is not reachable for it), set `_initialized_bot` and send
the init-complete signal. -/
def _initialize (st : HivemindState) : HivemindState :=
  let found := st.match_settings.player_configurations.filter
    (fun pc => st.spawn_ids.contains pc.spawn_id)
  { st with
    names := st.names ++ found.map (fun pc => pc.name)
    loggers := st.loggers ++ found.map (fun pc => pc.name)
    init_calls := st.init_calls + 1
    _initialized_bot := true
    init_complete_sent := true }

/-- `Hivemind._handle_match_settings` (hivemind.py lines 78-87). -/
def _handle_match_settings (st : HivemindState) (ms : MatchSettings) :
    HivemindState :=
  let st1 := { st with match_settings := ms, _has_match_settings := true }
  if !st1._initialized_bot && st1._has_field_info && st1._has_player_mapping
  then _initialize st1 else st1

/-- `Hivemind._handle_field_info` (hivemind.py lines 89-98). -/
def _handle_field_info (st : HivemindState) (fi : FieldInfo) :
    HivemindState :=
  let st1 := { st with field_info := fi, _has_field_info := true }
  if !st1._initialized_bot && st1._has_match_settings && st1._has_player_mapping
  then _initialize st1 else st1

/-- `Hivemind._handle_player_mappings` (hivemind.py lines 100-113): store
the team, append each controllable's spawn id and index to the parallel
roster lists, set the flag, and fire initialization when the other two
payloads have already arrived. -/
def _handle_player_mappings (st : HivemindState) (pm : TeamControllables) :
    HivemindState :=
  let st1 := { st with
    team := pm.team
    spawn_ids := st.spawn_ids ++ pm.controllables.map (fun c => c.spawn_id)
    indices := st.indices ++ pm.controllables.map (fun c => c.index)
    _has_player_mapping := true }
  if !st1._initialized_bot && st1._has_match_settings && st1._has_field_info
  then _initialize st1 else st1

/-- One inbound handshake payload delivery. -/
inductive Ev where
  | ms (p : MatchSettings)
  | fi (p : FieldInfo)
  | pm (p : TeamControllables)
deriving DecidableEq

/-- Dispatch one delivered payload to its handler. -/
def stepEv (st : HivemindState) : Ev → HivemindState
  | .ms p => _handle_match_settings st p
  | .fi p => _handle_field_info st p
  | .pm p => _handle_player_mappings st p

/-- Deliver a sequence of handshake payloads in order. -/
def runEvents (st : HivemindState) (evs : List Ev) : HivemindState :=
  evs.foldl stepEv st

def isMS : Ev → Bool
  | .ms _ => true
  | _ => false

def isFI : Ev → Bool
  | .fi _ => true
  | _ => false

def isPM : Ev → Bool
  | .pm _ => true
  | _ => false

/-- Whether a match-settings payload occurs in the delivery sequence. -/
def hasMS (evs : List Ev) : Bool := evs.any isMS

/-- Whether a field-info payload occurs in the delivery sequence. -/
def hasFI (evs : List Ev) : Bool := evs.any isFI

/-- Whether a player-mapping payload occurs in the delivery sequence. -/
def hasPM (evs : List Ev) : Bool := evs.any isPM

/-- Whether all three handshake payload kinds occur in the sequence. -/
def handshakeComplete (evs : List Ev) : Bool :=
  hasMS evs && hasFI evs && hasPM evs

/-- Handshake invariant: `_initialized_bot` equals the conjunction of the
three arrival flags, and the user hook has been invoked exactly once if
initialized, never otherwise. -/
def HSInv (st : HivemindState) : Prop :=
  st._initialized_bot
      = (st._has_match_settings && st._has_field_info && st._has_player_mapping)
  ∧ st.init_calls = (if st._initialized_bot then 1 else 0)

lemma stepEv_handshake (st : HivemindState) (hInv : HSInv st) (e : Ev) :
    HSInv (stepEv st e)
    ∧ (stepEv st e)._has_match_settings = (st._has_match_settings || isMS e)
    ∧ (stepEv st e)._has_field_info = (st._has_field_info || isFI e)
    ∧ (stepEv st e)._has_player_mapping = (st._has_player_mapping || isPM e) := by
  obtain ⟨h1, h2⟩ := hInv
  cases e <;>
    cases ha : st._has_match_settings <;>
      cases hb : st._has_field_info <;>
        cases hc : st._has_player_mapping <;>
          simp_all [stepEv, _handle_match_settings, _handle_field_info,
            _handle_player_mappings, _initialize, HSInv, isMS, isFI, isPM]

lemma runEvents_handshake (evs : List Ev) :
    ∀ st : HivemindState, HSInv st →
      HSInv (runEvents st evs)
      ∧ (runEvents st evs)._has_match_settings
          = (st._has_match_settings || hasMS evs)
      ∧ (runEvents st evs)._has_field_info
          = (st._has_field_info || hasFI evs)
      ∧ (runEvents st evs)._has_player_mapping
          = (st._has_player_mapping || hasPM evs) := by
  induction evs with
  | nil =>
      intro st hInv
      simpa [runEvents, hasMS, hasFI, hasPM] using hInv
  | cons e evs ih =>
      intro st hInv
      obtain ⟨hInv1, hms, hfi, hpm⟩ := stepEv_handshake st hInv e
      obtain ⟨ihInv, ihms, ihfi, ihpm⟩ := ih (stepEv st e) hInv1
      refine ⟨ihInv, ?_, ?_, ?_⟩ <;>
        simp [runEvents, List.foldl_cons, hasMS, hasFI, hasPM] at * <;>
        simp [ihms, ihfi, ihpm, hms, hfi, hpm, Bool.or_assoc]

/-- C1: for every sequence of handshake payload deliveries — all 6
permutations of the three kinds as well as arbitrary re-deliveries of
already-received payloads — the user initialization hook is invoked exactly
once if the sequence contains all three payload kinds and never otherwise,
`_initialized_bot` is true exactly when all three kinds have arrived (so it
flips at the first completing delivery, stays true from then on, and a
re-delivery after that point never re-invokes initialization), and each
arrival flag records exactly whether its payload kind has been delivered. -/
theorem handshake_fires_exactly_once (evs : List Ev) :
    (runEvents freshHivemind evs).init_calls
        = (if handshakeComplete evs then 1 else 0)
    ∧ (runEvents freshHivemind evs)._initialized_bot = handshakeComplete evs
    ∧ (runEvents freshHivemind evs)._has_match_settings = hasMS evs
    ∧ (runEvents freshHivemind evs)._has_field_info = hasFI evs
    ∧ (runEvents freshHivemind evs)._has_player_mapping = hasPM evs := by
  have hInv0 : HSInv freshHivemind := by
    constructor <;> rfl
  obtain ⟨⟨hInit, hCalls⟩, hms, hfi, hpm⟩ := runEvents_handshake evs freshHivemind hInv0
  have hms0 : (runEvents freshHivemind evs)._has_match_settings = hasMS evs := by
    simpa [freshHivemind] using hms
  have hfi0 : (runEvents freshHivemind evs)._has_field_info = hasFI evs := by
    simpa [freshHivemind] using hfi
  have hpm0 : (runEvents freshHivemind evs)._has_player_mapping = hasPM evs := by
    simpa [freshHivemind] using hpm
  have hInit0 : (runEvents freshHivemind evs)._initialized_bot
      = handshakeComplete evs := by
    rw [hInit, hms0, hfi0, hpm0, handshakeComplete]
  refine ⟨?_, hInit0, hms0, hfi0, hpm0⟩
  rw [hCalls, hInit0]

/-- Result of one `_packet_processor` call: the updated instance state, the
`flat.PlayerInput` messages handed to `send_player_input`, and the
`self._logger.error` entries emitted. -/
structure ProcResult where
  st : HivemindState
  sent : List PlayerInput
  error_logs : List ErrorLog
deriving DecidableEq

/-- `Hivemind._packet_processor` (hivemind.py lines 121-138), parameterized
by the user `get_outputs` hook (`Except.error` models the hook raising).
The guard compares the packet's player-array length to `self.indices[-1]`
(the LAST roster index); an empty roster makes that subscript raise an
uncaught IndexError.  When the guard passes, the prediction snapshot is
taken, the hook runs under try/except (a failure is logged with
`self.names` and nothing is sent), and on success each entry of the
returned mapping becomes one `send_player_input` call. -/
def _packet_processor
    (get_outputs : GameTickPacket → Except String (List (Nat × ControllerState)))
    (st : HivemindState) (packet : GameTickPacket) : Except PyErr ProcResult :=
  match st.indices.getLast? with
  | none => .error .indexError
  | some lastIdx =>
    if packet.players.length ≤ lastIdx then
      .ok { st := st, sent := [], error_logs := [] }
    else
      let st1 := { st with ball_prediction := st._latest_prediction }
      match get_outputs packet with
      | .error e =>
          .ok { st := st1, sent := [],
                error_logs := [{ names := st1.names, msg := e }] }
      | .ok controller =>
          .ok { st := st1,
                sent := controller.map
                  (fun ic => { index := ic.1, controller := ic.2 }),
                error_logs := [] }

/-- `Hivemind._handle_packet` (hivemind.py lines 118-119): unconditionally
overwrite the single-slot mailbox with the newest packet. -/
def _handle_packet (st : HivemindState) (packet : GameTickPacket) :
    HivemindState :=
  { st with _latest_packet := some packet }

/-- One drain of the run-loop body (hivemind.py lines 162-167): when the
mailbox is empty nothing is processed (the loop switches the socket to
blocking and continues); otherwise the mailbox packet is handed to
`_packet_processor` and the mailbox is cleared.  Returns the state and the
list of packets handed to `_packet_processor` during this drain. -/
def loopDrain (st : HivemindState) : HivemindState × List GameTickPacket :=
  match st._latest_packet with
  | none => (st, [])
  | some p => ({ st with _latest_packet := none }, [p])

/-- C6: the frame mailbox is single-slot with last-write-wins.  Delivering
two packets through `_handle_packet` before one drain of the loop body
leaves the second packet in the slot (the first is overwritten, not queued,
with no error value of any kind produced), and the drain hands exactly that
one packet — never both, never zero — to the processor. -/
theorem mailbox_last_write_wins (st : HivemindState)
    (p1 p2 : GameTickPacket) :
    (_handle_packet (_handle_packet st p1) p2)._latest_packet = some p2
    ∧ loopDrain (_handle_packet (_handle_packet st p1) p2)
        = ({ _handle_packet (_handle_packet st p1) p2 with
              _latest_packet := none }, [p2])
    ∧ (loopDrain (_handle_packet (_handle_packet st p1) p2)).2.length = 1 := by
  refine ⟨rfl, rfl, rfl⟩

/-- Conclusion of the fault-isolation claim: processing a roster-valid frame
on which the hook raises logs the failure with the controlled units' names
and sends nothing, the call returns normally, and processing a subsequent
frame on which the hook succeeds sends its outputs. -/
def FaultIsolated
    (g : GameTickPacket → Except String (List (Nat × ControllerState)))
    (st : HivemindState) (p1 p2 : GameTickPacket) (e : String)
    (outs : List (Nat × ControllerState)) : Prop :=
  _packet_processor g st p1
      = .ok { st := { st with ball_prediction := st._latest_prediction },
              sent := [],
              error_logs := [{ names := st.names, msg := e }] }
  ∧ _packet_processor g { st with ball_prediction := st._latest_prediction } p2
      = .ok { st := { st with ball_prediction := st._latest_prediction },
              sent := outs.map (fun ic => { index := ic.1, controller := ic.2 }),
              error_logs := [] }

/-- C4: for every frame that passes the roster-size check, a raising
`get_outputs` hook is caught: the failure is logged together with
`self.names`, zero player-input messages are sent for that tick, and
`_packet_processor` returns normally; a subsequent frame on which the hook
succeeds is then processed normally with its outputs sent. -/
theorem get_outputs_fault_isolated
    (g : GameTickPacket → Except String (List (Nat × ControllerState)))
    (st : HivemindState) (p1 p2 : GameTickPacket) (e : String)
    (outs : List (Nat × ControllerState)) (lastIdx : Nat)
    (hlast : st.indices.getLast? = some lastIdx)
    (h1 : lastIdx < p1.players.length)
    (h2 : lastIdx < p2.players.length)
    (hfail : g p1 = .error e)
    (hok : g p2 = .ok outs) :
    FaultIsolated g st p1 p2 e outs := by
  constructor
  · rw [_packet_processor, hlast]
    simp only [if_neg (Nat.not_le.mpr h1), hfail]
  · rw [_packet_processor]
    simp only [hlast, if_neg (Nat.not_le.mpr h2), hok]

/-- Concrete hook for the C4 witness: raises on single-player frames,
succeeds otherwise. -/
def gWitness (p : GameTickPacket) :
    Except String (List (Nat × ControllerState)) :=
  if p.players.length == 1 then .error "boom" else .ok [(0, 3)]

theorem get_outputs_fault_isolated_witness :
    ({ freshHivemind with indices := [0] } : HivemindState).indices.getLast? = some 0
    ∧ (0 : Nat) < 1 ∧ (0 : Nat) < 2
    ∧ gWitness { players := [0] } = .error "boom"
    ∧ gWitness { players := [0, 0] } = .ok [(0, 3)]
    ∧ FaultIsolated gWitness { freshHivemind with indices := [0] }
        { players := [0] } { players := [0, 0] } "boom" [(0, 3)] :=
  ⟨rfl, by decide, by decide, rfl, rfl,
    get_outputs_fault_isolated gWitness { freshHivemind with indices := [0] }
      { players := [0] } { players := [0, 0] } "boom" [(0, 3)] 0 rfl
      (by decide) (by decide) rfl rfl⟩

/-- Opaque payload: `flat.DesiredBallState`.  The default value models the
no-argument constructor `flat.DesiredBallState()`. -/
structure DesiredBallState where
  data : Nat := 0
deriving DecidableEq

/-- Opaque payload: `flat.DesiredCarState`. -/
structure DesiredCarState where
  data : Nat := 0
deriving DecidableEq

/-- The fields of `flat.DesiredGameState` assembled by `set_game_state`.
The flatbuffer constructor leaves `ball_states` and `car_states` as empty
lists when they are not assigned, so an omitted dimension is the empty
list. -/
structure DesiredGameState where
  ball_states : List DesiredBallState := []
  car_states : List DesiredCarState := []
  game_info_state : Option Nat := none
  console_commands : List String := []
deriving DecidableEq

/-- Python `max` over the keys of a sparse mapping (an association list
with distinct keys standing for the Python dict). -/
def maxKeys {α : Type} (m : List (Nat × α)) : Nat :=
  m.foldr (fun p acc => Nat.max p.1 acc) 0

/-- `Hivemind.set_game_state` (hivemind.py lines 235-265): build the
combined desired-state message, converting each non-empty sparse mapping
into a dense list of length `max(keys) + 1` whose gaps are filled with
default states (`dict.get(i, default)` is `(m.lookup i).getD default`),
and leaving the dimension of an empty mapping unassigned. -/
def set_game_state (balls : List (Nat × DesiredBallState))
    (cars : List (Nat × DesiredCarState)) (game_info : Option Nat)
    (commands : List String) : DesiredGameState :=
  let base : DesiredGameState :=
    { game_info_state := game_info, console_commands := commands }
  let withBalls :=
    if balls.isEmpty then base
    else { base with
      ball_states := (List.range (maxKeys balls + 1)).map
        (fun i => (balls.lookup i).getD {}) }
  if cars.isEmpty then withBalls
  else { withBalls with
    car_states := (List.range (maxKeys cars + 1)).map
      (fun i => (cars.lookup i).getD {}) }

lemma le_maxKeys {α : Type} (m : List (Nat × α)) :
    ∀ k ∈ m.map Prod.fst, k ≤ maxKeys m := by
  induction m with
  | nil => intro k hk; simp at hk
  | cons p m ih =>
      intro k hk
      rcases List.mem_cons.1 hk with h | h
      · subst h; exact Nat.le_max_left _ _
      · exact Nat.le_trans (ih k h) (Nat.le_max_right _ _)

lemma maxKeys_cons {α : Type} (p : Nat × α) (m : List (Nat × α)) :
    maxKeys (p :: m) = Nat.max p.1 (maxKeys m) := rfl

lemma maxKeys_mem {α : Type} (m : List (Nat × α)) (h : m ≠ []) :
    maxKeys m ∈ m.map Prod.fst := by
  induction m with
  | nil => exact absurd rfl h
  | cons p m ih =>
      by_cases hm0 : m = []
      · subst hm0
        simp [maxKeys]
      · rcases Nat.le_total (maxKeys m) p.1 with hle | hle
        · have hmax : Nat.max p.1 (maxKeys m) = p.1 := by
            show (if p.1 ≤ maxKeys m then maxKeys m else p.1) = p.1
            split <;> omega
          rw [maxKeys_cons, hmax]
          exact List.mem_cons_self _ _
        · have hmax : Nat.max p.1 (maxKeys m) = maxKeys m := by
            show (if p.1 ≤ maxKeys m then maxKeys m else p.1) = maxKeys m
            split <;> omega
          rw [maxKeys_cons, hmax]
          exact List.mem_cons_of_mem _ (ih hm0)

/-- Dense-sequence property for one dimension of the desired-state message:
the output has length `max(keys) + 1`, `maxKeys` really is the maximum of
the mapping's keys, and position `i` holds the mapping's value at `i` when
present and the default state otherwise. -/
def DenseOk {α : Type} (m : List (Nat × α)) (dflt : α) (out : List α) : Prop :=
  out.length = maxKeys m + 1
  ∧ maxKeys m ∈ m.map Prod.fst
  ∧ (∀ k ∈ m.map Prod.fst, k ≤ maxKeys m)
  ∧ ∀ i, i < maxKeys m + 1 → out.get? i = some ((m.lookup i).getD dflt)

/-- Conclusion of the C5 claim for one `set_game_state` call. -/
def GameStateOk (balls : List (Nat × DesiredBallState))
    (cars : List (Nat × DesiredCarState)) (game_info : Option Nat)
    (commands : List String) : Prop :=
  (balls ≠ [] →
      DenseOk balls {} (set_game_state balls cars game_info commands).ball_states)
  ∧ (balls = [] → (set_game_state balls cars game_info commands).ball_states = [])
  ∧ (cars ≠ [] →
      DenseOk cars {} (set_game_state balls cars game_info commands).car_states)
  ∧ (cars = [] → (set_game_state balls cars game_info commands).car_states = [])

lemma range_map_denseOk {α : Type} (m : List (Nat × α)) (dflt : α)
    (h : m ≠ []) :
    DenseOk m dflt ((List.range (maxKeys m + 1)).map
      (fun i => (m.lookup i).getD dflt)) := by
  refine ⟨by simp, maxKeys_mem m h, le_maxKeys m, ?_⟩
  intro i hi
  rw [List.get?_map, List.get?_range hi]
  rfl

/-- C5: for every `set_game_state` call whose sparse mappings have distinct
keys (as Python dict keys are), a non-empty balls (resp. cars) mapping
yields a dense `ball_states` (resp. `car_states`) sequence of length
`max(keys) + 1` filled with the mapping's values where present and default
states elsewhere, while an empty mapping leaves the corresponding sequence
out of the message entirely. -/
theorem set_game_state_dense_conversion (balls : List (Nat × DesiredBallState))
    (cars : List (Nat × DesiredCarState)) (game_info : Option Nat)
    (commands : List String)
    (hb : (balls.map Prod.fst).Nodup) (hc : (cars.map Prod.fst).Nodup) :
    GameStateOk balls cars game_info commands := by
  refine ⟨?_, ?_, ?_, ?_⟩
  · intro hne
    have hne2 : balls.isEmpty = false := by
      simpa [List.isEmpty_iff] using hne
    by_cases hcars : cars.isEmpty <;>
      · simp only [set_game_state, hne2, hcars, Bool.false_eq_true, if_false,
          if_true, ite_self]
        exact range_map_denseOk balls {} hne
  · intro hnil
    subst hnil
    by_cases hcars : cars.isEmpty <;>
      simp [set_game_state, hcars]
  · intro hne
    have hne2 : cars.isEmpty = false := by
      simpa [List.isEmpty_iff] using hne
    by_cases hballs : balls.isEmpty <;>
      · simp only [set_game_state, hne2, hballs, Bool.false_eq_true, if_false,
          if_true, ite_self]
        exact range_map_denseOk cars {} hne
  · intro hnil
    subst hnil
    by_cases hballs : balls.isEmpty <;>
      simp [set_game_state, hballs]

theorem set_game_state_dense_conversion_witness :
    (([((3 : Nat), ({ data := 5 } : DesiredBallState))].map Prod.fst).Nodup)
    ∧ (([] : List (Nat × DesiredCarState)).map Prod.fst).Nodup
    ∧ GameStateOk [(3, { data := 5 })] [] none []
    ∧ (set_game_state [(3, { data := 5 })] [] none []).ball_states
        = [{}, {}, {}, { data := 5 }]
    ∧ (set_game_state [(3, { data := 5 })] [] none []).car_states = [] :=
  ⟨by decide, by decide,
    set_game_state_dense_conversion [(3, { data := 5 })] [] none []
      (by decide) (by decide),
    rfl, rfl⟩

/-- The highest known roster index (what the spec's discard condition is
phrased in terms of). -/
def rosterMax (l : List Nat) : Nat := l.foldr Nat.max 0

lemma rosterMax_cons (x : Nat) (t : List Nat) :
    rosterMax (x :: t) = Nat.max x (rosterMax t) := rfl

lemma nat_max_le {a b c : Nat} (h1 : a ≤ c) (h2 : b ≤ c) :
    Nat.max a b ≤ c := by
  show (if a ≤ b then b else a) ≤ c
  split <;> assumption

lemma getLast?_mem_self {α : Type} :
    ∀ (l : List α) (a : α), l.getLast? = some a → a ∈ l := by
  intro l
  induction l with
  | nil => intro a h; simp at h
  | cons x t ih =>
      intro a h
      cases t with
      | nil =>
          simp at h
          subst h
          exact List.mem_cons_self _ _
      | cons y t2 =>
          rw [List.getLast?_cons_cons] at h
          exact List.mem_cons_of_mem _ (ih a h)

lemma sorted_rosterMax_le_getLast (l : List Nat) (a : Nat)
    (hs : l.Sorted (fun x y => x ≤ y)) (h : l.getLast? = some a) :
    rosterMax l ≤ a := by
  induction l with
  | nil => simp at h
  | cons x t ih =>
      rw [List.sorted_cons] at hs
      obtain ⟨hx, ht⟩ := hs
      cases t with
      | nil =>
          simp at h
          subst h
          exact nat_max_le (Nat.le_refl _) (Nat.zero_le _)
      | cons y t2 =>
          rw [List.getLast?_cons_cons] at h
          exact nat_max_le (hx a (getLast?_mem_self _ a h)) (ih ht h)

/-- C7 (amended): the discard guard of `_packet_processor` compares the
player-array length against the LAST roster index `self.indices[-1]`, not
against the highest one.  A frame with at most `indices[-1]` player entries
is discarded silently: the call returns normally with the state unchanged
(so the prediction snapshot is not taken), no player-input message is sent,
no error is logged, and the result does not depend on the `get_outputs`
hook at all (it is never invoked).  When the roster indices are in
ascending order — so that the last index is the highest — this coincides
with the claim's reading: any frame with fewer entries than the highest
roster index requires is discarded, which is the second disjunct of the
hypothesis. -/
theorem roster_check_discard_amended
    (g : GameTickPacket → Except String (List (Nat × ControllerState)))
    (st : HivemindState) (p : GameTickPacket) (lastIdx : Nat)
    (hlast : st.indices.getLast? = some lastIdx)
    (hcase : p.players.length ≤ lastIdx
      ∨ (st.indices.Sorted (fun x y => x ≤ y)
          ∧ p.players.length < rosterMax st.indices + 1)) :
    _packet_processor g st p = .ok { st := st, sent := [], error_logs := [] } := by
  have hle : p.players.length ≤ lastIdx := by
    rcases hcase with h | ⟨hsorted, hlt⟩
    · exact h
    · exact Nat.le_trans (Nat.lt_succ_iff.mp hlt)
        (sorted_rosterMax_le_getLast st.indices lastIdx hsorted hlast)
  rw [_packet_processor, hlast]
  simp only [if_pos hle]

theorem roster_check_discard_amended_witness :
    ({ freshHivemind with indices := [0, 2] } : HivemindState).indices.getLast?
        = some 2
    ∧ (({ players := [0, 0] } : GameTickPacket).players.length ≤ 2
        ∨ (({ freshHivemind with indices := [0, 2] } : HivemindState).indices.Sorted
              (fun x y => x ≤ y)
            ∧ ({ players := [0, 0] } : GameTickPacket).players.length
                < rosterMax [0, 2] + 1))
    ∧ _packet_processor gWitness { freshHivemind with indices := [0, 2] }
          { players := [0, 0] }
        = .ok { st := { freshHivemind with indices := [0, 2] },
                sent := [], error_logs := [] } :=
  ⟨rfl, Or.inl (by decide),
    roster_check_discard_amended gWitness
      { freshHivemind with indices := [0, 2] } { players := [0, 0] } 2 rfl
      (Or.inl (by decide))⟩

/-- A roster state reachable through the embedded handlers in which the
controllables arrive with descending indices, so the last roster index (2)
is smaller than the highest one (5). -/
def stDescending : HivemindState :=
  runEvents freshHivemind
    [Ev.pm { team := 0, controllables :=
        [{ index := 5, spawn_id := 50 }, { index := 2, spawn_id := 20 }] },
     Ev.fi 0,
     Ev.ms { player_configurations :=
        [{ name := "P5", spawn_id := 50 }, { name := "P2", spawn_id := 20 }] }]

/-- A hook returning one concrete controller mapping, used to show a
player-input message actually goes out. -/
def gCounter (_ : GameTickPacket) :
    Except String (List (Nat × ControllerState)) := .ok [(5, 7)]

/-- C7 (counterexample): in the reachable state `stDescending` the roster
indices are `[5, 2]`, so a frame with 4 player entries has fewer entries
than the highest known roster index (5) requires — the claim says it must
be discarded silently with no message sent — yet the code compares against
`indices[-1] = 2`, processes the frame, updates the prediction snapshot and
sends a player-input message. -/
theorem roster_check_counterexample :
    stDescending.indices = [5, 2]
    ∧ ({ players := [0, 0, 0, 0] } : GameTickPacket).players.length
        < rosterMax stDescending.indices + 1
    ∧ _packet_processor gCounter stDescending { players := [0, 0, 0, 0] }
        = .ok { st := { stDescending with
                  ball_prediction := stDescending._latest_prediction },
                sent := [{ index := 5, controller := 7 }], error_logs := [] }
    ∧ [({ index := 5, controller := 7 } : PlayerInput)] ≠ [] := by
  refine ⟨by decide, by decide, rfl, by decide⟩

/-- The controllables carried by one delivery (empty for the other kinds). -/
def pmPayload : Ev → List Controllable
  | .pm m => m.controllables
  | _ => []

/-- All controllables delivered by the player-mapping payloads of a
sequence, in delivery order. -/
def pmControllables (evs : List Ev) : List Controllable :=
  evs.foldr (fun e acc => pmPayload e ++ acc) []

lemma pmControllables_cons (e : Ev) (evs : List Ev) :
    pmControllables (e :: evs) = pmPayload e ++ pmControllables evs := rfl

lemma stepEv_roster (st : HivemindState) (e : Ev) :
    (stepEv st e).spawn_ids
        = st.spawn_ids ++ (pmPayload e).map (fun c => c.spawn_id)
    ∧ (stepEv st e).indices
        = st.indices ++ (pmPayload e).map (fun c => c.index) := by
  cases e <;>
    simp only [stepEv, _handle_match_settings, _handle_field_info,
      _handle_player_mappings, pmPayload] <;>
    split <;>
    simp [ _initialize]

lemma runEvents_roster (evs : List Ev) :
    ∀ st : HivemindState,
      (runEvents st evs).spawn_ids
          = st.spawn_ids ++ (pmControllables evs).map (fun c => c.spawn_id)
      ∧ (runEvents st evs).indices
          = st.indices ++ (pmControllables evs).map (fun c => c.index) := by
  induction evs with
  | nil => intro st; simp [runEvents, pmControllables]
  | cons e evs ih =>
      intro st
      obtain ⟨hs, hi⟩ := stepEv_roster st e
      obtain ⟨ihs, ihi⟩ := ih (stepEv st e)
      constructor
      · rw [runEvents, List.foldl_cons, ← runEvents, ihs, hs,
          pmControllables_cons, List.map_append, List.append_assoc]
      · rw [runEvents, List.foldl_cons, ← runEvents, ihi, hi,
          pmControllables_cons, List.map_append, List.append_assoc]

/-- The state after the canonical single-delivery handshake
`player-mapping, field-info, match-settings` on a fresh instance. -/
lemma canonical_handshake (m : TeamControllables) (f : FieldInfo)
    (s : MatchSettings) :
    runEvents freshHivemind [Ev.pm m, Ev.fi f, Ev.ms s]
      = { team := m.team
          indices := m.controllables.map (fun c => c.index)
          names := (s.player_configurations.filter
            (fun pc => (m.controllables.map (fun c => c.spawn_id)).contains
              pc.spawn_id)).map (fun pc => pc.name)
          spawn_ids := m.controllables.map (fun c => c.spawn_id)
          loggers := (s.player_configurations.filter
            (fun pc => (m.controllables.map (fun c => c.spawn_id)).contains
              pc.spawn_id)).map (fun pc => pc.name)
          match_settings := s
          field_info := f
          _initialized_bot := true
          _has_match_settings := true
          _has_field_info := true
          _has_player_mapping := true
          init_calls := 1
          init_complete_sent := true } := rfl

/-- Conclusion of the amended roster-alignment claim: `spawn_ids` and
`indices` always stay in lockstep (each position comes from the same
delivered controllable), and after the canonical single-delivery handshake
in which the match-settings player list enumerates exactly the mapped spawn
ids in delivery order, `names` has the same length and position `k` of
`names` and `spawn_ids` belongs to one and the same match-settings
player. -/
def RosterAligned (evs : List Ev) (m : TeamControllables) (f : FieldInfo)
    (s : MatchSettings) : Prop :=
  (runEvents freshHivemind evs).spawn_ids.length
      = (runEvents freshHivemind evs).indices.length
  ∧ (runEvents freshHivemind evs).spawn_ids
      = (pmControllables evs).map (fun c => c.spawn_id)
  ∧ (runEvents freshHivemind evs).indices
      = (pmControllables evs).map (fun c => c.index)
  ∧ (runEvents freshHivemind [Ev.pm m, Ev.fi f, Ev.ms s]).names.length
      = (runEvents freshHivemind [Ev.pm m, Ev.fi f, Ev.ms s]).spawn_ids.length
  ∧ (runEvents freshHivemind [Ev.pm m, Ev.fi f, Ev.ms s]).indices.length
      = (runEvents freshHivemind [Ev.pm m, Ev.fi f, Ev.ms s]).spawn_ids.length
  ∧ ∀ k, k < (runEvents freshHivemind [Ev.pm m, Ev.fi f, Ev.ms s]).names.length →
      ∃ pc, pc ∈ s.player_configurations
        ∧ (runEvents freshHivemind [Ev.pm m, Ev.fi f, Ev.ms s]).names.get? k
            = some pc.name
        ∧ (runEvents freshHivemind [Ev.pm m, Ev.fi f, Ev.ms s]).spawn_ids.get? k
            = some pc.spawn_id

/-- C8 (amended): after every sequence of handshake deliveries the
`spawn_ids` and `indices` sequences have the same length and position `k`
of both comes from the same delivered controllable; the `names` sequence
additionally matches them in length and per-position unit only under the
alignment hypothesis that the match-settings player list, restricted to the
mapped spawn ids, enumerates exactly those spawn ids in delivery order (and
for a single player-mapping delivery).  Without that hypothesis the claim
fails: names are appended in match-settings order during `_initialize`
while spawn ids are appended in delivery order by
`_handle_player_mappings`, and re-deliveries re-append spawn ids but not
names. -/
theorem roster_parallel_amended (evs : List Ev) (m : TeamControllables)
    (f : FieldInfo) (s : MatchSettings)
    (hAlign : (s.player_configurations.filter
        (fun pc => (m.controllables.map (fun c => c.spawn_id)).contains
          pc.spawn_id)).map (fun pc => pc.spawn_id)
      = m.controllables.map (fun c => c.spawn_id)) :
    RosterAligned evs m f s := by
  obtain ⟨hs, hi⟩ := runEvents_roster evs freshHivemind
  have hs0 : (runEvents freshHivemind evs).spawn_ids
      = (pmControllables evs).map (fun c => c.spawn_id) := by
    simpa [freshHivemind] using hs
  have hi0 : (runEvents freshHivemind evs).indices
      = (pmControllables evs).map (fun c => c.index) := by
    simpa [freshHivemind] using hi
  refine ⟨by rw [hs0, hi0]; simp, hs0, hi0, ?_, ?_, ?_⟩
  · rw [canonical_handshake]
    have := congrArg List.length hAlign
    simpa using this
  · rw [canonical_handshake]
    simp
  · intro k hk
    rw [canonical_handshake] at hk ⊢
    simp only [List.length_map] at hk
    refine ⟨(s.player_configurations.filter
        (fun pc => (m.controllables.map (fun c => c.spawn_id)).contains
          pc.spawn_id)).get ⟨k, hk⟩, ?_, ?_, ?_⟩
    · exact List.mem_of_mem_filter (List.get_mem _ _ _)
    · rw [List.get?_map, List.get?_eq_get hk]
      rfl
    · show (m.controllables.map (fun c => c.spawn_id)).get? k = _
      conv_lhs => rw [← hAlign]
      rw [List.get?_map, List.get?_eq_get hk]
      rfl

/-- A player mapping delivering one controllable (index 0, spawn id 10). -/
def mOne : TeamControllables :=
  { team := 0, controllables := [{ index := 0, spawn_id := 10 }] }

/-- Match settings listing the one mapped player, name "A". -/
def sOne : MatchSettings :=
  { player_configurations := [{ name := "A", spawn_id := 10 }] }

/-- C8 (counterexample): re-delivering the same player-mapping payload
before the handshake completes appends the controllables' spawn ids and
indices a second time, while `_initialize` appends one name per matching
match-settings player only once — after the sequence
`pm, pm (re-delivery), fi, ms` the spawn-id sequence has length 2 but the
name sequence has length 1, so the three roster sequences do not all have
the same length. -/
theorem roster_parallel_counterexample :
    (runEvents freshHivemind
        [Ev.pm mOne, Ev.pm mOne, Ev.fi 0, Ev.ms sOne]).spawn_ids.length = 2
    ∧ (runEvents freshHivemind
        [Ev.pm mOne, Ev.pm mOne, Ev.fi 0, Ev.ms sOne]).names.length = 1
    ∧ (2 : Nat) ≠ 1 := by
  refine ⟨by decide, by decide, by decide⟩

theorem roster_parallel_amended_witness :
    ((sOne.player_configurations.filter
        (fun pc => (mOne.controllables.map (fun c => c.spawn_id)).contains
          pc.spawn_id)).map (fun pc => pc.spawn_id)
      = mOne.controllables.map (fun c => c.spawn_id))
    ∧ RosterAligned [Ev.pm mOne] mOne 0 sOne :=
  ⟨by decide, roster_parallel_amended [Ev.pm mOne] mOne 0 sOne (by decide)⟩

/-- `MAX_INT = 2147483647 // 2` (rendering.py line 7). -/
def MAX_INT : Int := 2147483647 / 2

/-- `RenderingManager._get_group_id` (rendering.py lines 47-49):
`hash(str(group_id).encode("utf-8")) % MAX_INT`.  The builtin `hash` of a
`bytes` object is CPython's siphash salted with the per-process
`PYTHONHASHSEED` value, so it is a function of the process's hash seed as
well as of the string; it is modelled here by the explicit parameter
`pyhash`, the hash function the current process run was started with.
Python's `%` with a positive modulus agrees with `Int.emod`. -/
def _get_group_id (pyhash : String → Int) (group_id : String) : Int :=
  pyhash group_id % MAX_INT

/-- A stand-in for the builtin hash function of one process run. -/
def pyhashRunA : String → Int := fun _ => 0

/-- A stand-in for the builtin hash function of a second process run
started with a different `PYTHONHASHSEED`. -/
def pyhashRunB : String → Int := fun _ => 1

/-- C2 (evaluation at the failing input): `_get_group_id` is the salted
builtin hash reduced mod `MAX_INT`, so its value on one and the same name
("default") differs between two process runs whose builtin hash functions
differ on that name — the id is deterministic only for a fixed per-process
hash function (last conjunct), not across process runs as the claim
requires. -/
theorem group_id_depends_on_process_hash_seed :
    _get_group_id pyhashRunA "default" = 0
    ∧ _get_group_id pyhashRunB "default" = 1
    ∧ _get_group_id pyhashRunA "default" ≠ _get_group_id pyhashRunB "default"
    ∧ ∀ pyhash : String → Int, ∀ s1 s2 : String, pyhash s1 = pyhash s2 →
        _get_group_id pyhash s1 = _get_group_id pyhash s2 := by
  refine ⟨by decide, by decide, by decide, ?_⟩
  intro pyhash s1 s2 h
  rw [_get_group_id, _get_group_id, h]

/-- The bound methods a `Hivemind.__init__` can register with the relay. -/
inductive BoundHandler where
  | handle_match_settings
  | handle_field_info
  | handle_player_mappings
  | handle_match_communication
  | handle_ball_prediction
  | handle_packet
deriving DecidableEq

/-- Modelled from the spec: the `SocketRelay` transport collaborator is
external to this excerpt; the spec lists its six registration lists for
handlers of match settings, field info, player-mapping, match
communication, ball prediction and the per-tick packet.  Each list starts
empty and `append` pushes one bound handler. -/
structure SocketRelay where
  match_settings_handlers : List BoundHandler := []
  field_info_handlers : List BoundHandler := []
  player_mapping_handlers : List BoundHandler := []
  match_communication_handlers : List BoundHandler := []
  ball_prediction_handlers : List BoundHandler := []
  packet_handlers : List BoundHandler := []
deriving DecidableEq

/-- The handler registrations performed by `Hivemind.__init__`
(hivemind.py lines 44-53): it appends `_handle_match_settings`,
`_handle_field_info`, `_handle_match_communication`,
`_handle_ball_prediction` and `_handle_packet` to the relay's lists — and
nothing else; no statement in `__init__` touches the player-mapping
handler list. -/
def hivemind_init_registrations (relay : SocketRelay) : SocketRelay :=
  { relay with
    match_settings_handlers :=
      relay.match_settings_handlers ++ [.handle_match_settings]
    field_info_handlers := relay.field_info_handlers ++ [.handle_field_info]
    match_communication_handlers :=
      relay.match_communication_handlers ++ [.handle_match_communication]
    ball_prediction_handlers :=
      relay.ball_prediction_handlers ++ [.handle_ball_prediction]
    packet_handlers := relay.packet_handlers ++ [.handle_packet] }

/-- C3 (evaluation at the failing input): constructing a `Hivemind` on a
fresh relay registers handlers for only five of the six inbound message
kinds; the player-mapping handler list stays empty, so it does not contain
`_handle_player_mappings` and the claimed sixth registration never
happens. -/
theorem player_mapping_handler_never_registered :
    (hivemind_init_registrations {}).player_mapping_handlers = []
    ∧ BoundHandler.handle_player_mappings ∉
        (hivemind_init_registrations {}).player_mapping_handlers
    ∧ (hivemind_init_registrations {}).match_settings_handlers
        = [.handle_match_settings]
    ∧ (hivemind_init_registrations {}).field_info_handlers
        = [.handle_field_info]
    ∧ (hivemind_init_registrations {}).match_communication_handlers
        = [.handle_match_communication]
    ∧ (hivemind_init_registrations {}).ball_prediction_handlers
        = [.handle_ball_prediction]
    ∧ (hivemind_init_registrations {}).packet_handlers = [.handle_packet] := by
  refine ⟨rfl, by decide, rfl, rfl, rfl, rfl, rfl⟩

/-- The roster containers are declared as CLASS attributes of `Hivemind`
(hivemind.py lines 17-23) and are only ever mutated in place with
`.append(...)`, never reassigned through `self`; by Python attribute
semantics every instance therefore reads and mutates the single list
object stored on the class. -/
structure HivemindClassAttrs where
  loggers : List String := []
  indices : List Nat := []
  names : List String := []
  spawn_ids : List Int := []
deriving DecidableEq

/-- Attributes that `Hivemind` methods assign through `self.x = ...`,
which creates a per-instance attribute shadowing the class one. -/
structure HivemindInstanceAttrs where
  team : Int := -1
  _has_player_mapping : Bool := false
deriving DecidableEq

/-- Two separately constructed `Hivemind` instances A and B together with
the class object whose list attributes both share. -/
structure TwoHiveminds where
  classAttrs : HivemindClassAttrs := {}
  instA : HivemindInstanceAttrs := {}
  instB : HivemindInstanceAttrs := {}
deriving DecidableEq

/-- Reading `A.spawn_ids`: no instance attribute of that name is ever
created, so attribute lookup falls through to the class object. -/
def spawn_ids_of_A (w : TwoHiveminds) : List Int := w.classAttrs.spawn_ids

/-- Reading `B.spawn_ids`: same fall-through to the class object. -/
def spawn_ids_of_B (w : TwoHiveminds) : List Int := w.classAttrs.spawn_ids

/-- `_handle_player_mappings` invoked on instance A
(hivemind.py lines 100-106): `self.team = ...` assigns a per-instance
attribute on A, while `self.spawn_ids.append(...)` and
`self.indices.append(...)` mutate the lists on the class object in
place. -/
def handle_player_mappings_on_A (w : TwoHiveminds) (pm : TeamControllables) :
    TwoHiveminds :=
  { w with
    classAttrs := { w.classAttrs with
      spawn_ids := w.classAttrs.spawn_ids
        ++ pm.controllables.map (fun c => c.spawn_id)
      indices := w.classAttrs.indices
        ++ pm.controllables.map (fun c => c.index) }
    instA := { w.instA with team := pm.team, _has_player_mapping := true } }

/-- C9 (evaluation at the failing input): with two freshly constructed
instances, delivering a player-mapping payload with one controllable
(spawn id 10) to instance A makes `B.spawn_ids` equal to `[10]` — B's
roster sequence observes A's append because both instances alias the one
list stored on the class, contradicting the claim that the roster
containers are fresh per instance. -/
theorem roster_lists_shared_between_instances :
    spawn_ids_of_B {} = []
    ∧ spawn_ids_of_B (handle_player_mappings_on_A {}
        { team := 0, controllables := [{ index := 0, spawn_id := 10 }] }) = [10]
    ∧ spawn_ids_of_B (handle_player_mappings_on_A {}
        { team := 0, controllables := [{ index := 0, spawn_id := 10 }] })
      = spawn_ids_of_A (handle_player_mappings_on_A {}
        { team := 0, controllables := [{ index := 0, spawn_id := 10 }] })
    ∧ spawn_ids_of_B (handle_player_mappings_on_A {}
        { team := 0, controllables := [{ index := 0, spawn_id := 10 }] }) ≠ [] := by
  refine ⟨rfl, rfl, rfl, by decide⟩

/-- Opaque payload: `flat.String2D`. -/
structure String2D where
  data : Nat := 0
deriving DecidableEq

/-- Opaque payload: `flat.String3D`. -/
structure String3D where
  data : Nat := 0
deriving DecidableEq

/-- Opaque payload: `flat.Line3D`. -/
structure Line3D where
  data : Nat := 0
deriving DecidableEq

/-- Opaque payload: `flat.PolyLine3D`. -/
structure PolyLine3D where
  data : Nat := 0
deriving DecidableEq

/-- `flat.RenderType`: the tagged union wrapped by each draw operation. -/
inductive RenderType where
  | string_2_d (r : String2D)
  | string_3_d (r : String3D)
  | line_3_d (r : Line3D)
  | poly_line_3_d (r : PolyLine3D)
deriving DecidableEq

/-- `flat.RenderMessage`: one typed draw descriptor. -/
structure RenderMessage where
  ty : RenderType
deriving DecidableEq

/-- The state of one `RenderingManager` instance (rendering.py lines
27-41), with the calls handed to the transport (`send_render_group`,
`remove_render_group`) and the `self.logger.error` messages recorded as
explicit effect logs. -/
structure RenderingManagerState where
  used_group_ids : List Int := []
  group_id : Option Int := none
  current_renders : List RenderMessage := []
  sent_render_groups : List (List RenderMessage × Int) := []
  removed_render_groups : List Int := []
  error_logs : List String := []
deriving DecidableEq

/-- `RenderingManager.begin_rendering` (rendering.py lines 51-60): a second
begin without an end logs an error and changes nothing; otherwise the
hashed group id becomes current and is added to the owned-id set. -/
def begin_rendering (pyhash : String → Int) (st : RenderingManagerState)
    (group_id : String) : RenderingManagerState :=
  match st.group_id with
  | some _ =>
      { st with error_logs := st.error_logs
          ++ ["begin_rendering was called twice without end_rendering."] }
  | none =>
      let gid := _get_group_id pyhash group_id
      { st with
        group_id := some gid
        used_group_ids :=
          if st.used_group_ids.contains gid then st.used_group_ids
          else st.used_group_ids ++ [gid] }

/-- `RenderingManager.end_rendering` (rendering.py lines 62-69): with no
open batch it logs an error and sends nothing; otherwise it sends the
accumulated renders as one group tagged with the current id, clears them
and marks no batch open. -/
def end_rendering (st : RenderingManagerState) : RenderingManagerState :=
  match st.group_id with
  | none =>
      { st with error_logs := st.error_logs
          ++ ["end_rendering was called without begin_rendering first."] }
  | some gid =>
      { st with
        sent_render_groups := st.sent_render_groups
          ++ [(st.current_renders, gid)]
        current_renders := []
        group_id := none }

/-- `RenderingManager.draw_string_2d` (rendering.py lines 91-94): append
one descriptor to the pending render buffer, with no check of `group_id`,
no log and no message. -/
def draw_string_2d (st : RenderingManagerState) (render : String2D) :
    RenderingManagerState :=
  { st with current_renders :=
      st.current_renders ++ [{ ty := .string_2_d render }] }

/-- `RenderingManager.draw_string_3d` (rendering.py lines 96-99). -/
def draw_string_3d (st : RenderingManagerState) (render : String3D) :
    RenderingManagerState :=
  { st with current_renders :=
      st.current_renders ++ [{ ty := .string_3_d render }] }

/-- `RenderingManager.draw_line_3d` (rendering.py lines 101-104). -/
def draw_line_3d (st : RenderingManagerState) (render : Line3D) :
    RenderingManagerState :=
  { st with current_renders :=
      st.current_renders ++ [{ ty := .line_3_d render }] }

/-- `RenderingManager.draw_polyline_3d` (rendering.py lines 106-109). -/
def draw_polyline_3d (st : RenderingManagerState) (render : PolyLine3D) :
    RenderingManagerState :=
  { st with current_renders :=
      st.current_renders ++ [{ ty := .poly_line_3_d render }] }

/-- One call to any of the four draw operations. -/
inductive DrawCall where
  | string2 (r : String2D)
  | string3 (r : String3D)
  | line3 (r : Line3D)
  | poly3 (r : PolyLine3D)
deriving DecidableEq

/-- Dispatch a draw call to its draw operation. -/
def applyDraw (st : RenderingManagerState) : DrawCall → RenderingManagerState
  | .string2 r => draw_string_2d st r
  | .string3 r => draw_string_3d st r
  | .line3 r => draw_line_3d st r
  | .poly3 r => draw_polyline_3d st r

/-- The descriptor a draw call appends. -/
def drawMessage : DrawCall → RenderMessage
  | .string2 r => { ty := .string_2_d r }
  | .string3 r => { ty := .string_3_d r }
  | .line3 r => { ty := .line_3_d r }
  | .poly3 r => { ty := .poly_line_3_d r }

/-- Conclusion of the C10 claim: a draw call issued while no batch is open
logs nothing and sends nothing, appends its descriptor to the pending
buffer, and the descriptor is part of the grouped message sent by the next
`end_rendering` that follows a `begin_rendering`. -/
def DrawBuffered (pyhash : String → Int) (st : RenderingManagerState)
    (c : DrawCall) (name : String) : Prop :=
  (applyDraw st c).error_logs = st.error_logs
  ∧ (applyDraw st c).sent_render_groups = st.sent_render_groups
  ∧ (applyDraw st c).group_id = none
  ∧ (applyDraw st c).current_renders = st.current_renders ++ [drawMessage c]
  ∧ (end_rendering (begin_rendering pyhash (applyDraw st c) name)).sent_render_groups
      = st.sent_render_groups
        ++ [(st.current_renders ++ [drawMessage c], _get_group_id pyhash name)]
  ∧ (end_rendering (begin_rendering pyhash (applyDraw st c) name)).error_logs
      = st.error_logs
  ∧ drawMessage c ∈ st.current_renders ++ [drawMessage c]

/-- C10: calling any of the four draw operations while no batch is open
(`group_id` is `None`) raises nothing and logs no error; the draw
descriptor is appended to the pending render buffer and is included in the
grouped message sent by the next `end_rendering` that follows a
`begin_rendering` — the code buffers implicitly instead of treating the
call as a usage error. -/
theorem draw_without_batch_buffers (pyhash : String → Int)
    (st : RenderingManagerState) (c : DrawCall) (name : String)
    (h : st.group_id = none) :
    DrawBuffered pyhash st c name := by
  have hdraw : applyDraw st c
      = { st with current_renders := st.current_renders ++ [drawMessage c] } := by
    cases c <;> rfl
  refine ⟨?_, ?_, ?_, ?_, ?_, ?_, List.mem_append_right _ (List.mem_cons_self _ _)⟩ <;>
    rw [hdraw] <;>
    simp [begin_rendering, end_rendering, h]

theorem draw_without_batch_buffers_witness :
    ({} : RenderingManagerState).group_id = none
    ∧ DrawBuffered pyhashRunA {} (.line3 { data := 1 }) "x" :=
  ⟨rfl, draw_without_batch_buffers pyhashRunA {} (.line3 { data := 1 }) "x" rfl⟩

end RLBot
